import Mathlib

/-!
Shallow embedding of mGBA's `src/platform/qt/FrameView.cpp` (frame-layer
decomposition and interactive replay engine) and proofs about the claims of
its specification.

Coordinates are modelled as `Int`: every coordinate the code manipulates
originates from integer hardware registers (`io[...] & 0x1FF`) or sprite
attributes, and `QRegion::translated` / `QRegion::contains` truncate the
`qreal` values to integers anyway.  `std::fmod` on integral doubles agrees
with truncated integer remainder (`Int.tmod`, result sign follows the
dividend), which is how it is embedded.
-/

namespace FrameView

/-- Layer kinds, from `FrameView::LayerId` (`NONE`, `BACKGROUND`, `WINDOW`,
`SPRITE`, `BACKDROP`). -/
inductive LayerType where
  | NONE
  | BACKGROUND
  | WINDOW
  | SPRITE
  | BACKDROP
deriving DecidableEq, Repr

/-- A layer identity: kind plus index, structural equality
(`FrameView::LayerId`). -/
structure LayerId where
  type : LayerType
  index : Int
deriving DecidableEq, Repr

/-- Modelled from the spec: the default-constructed `LayerId {}` used for
"no active layer" (the class header with the member initializers is not in
the sampled sources; `readable()` treats a negative index as absent, and the
spec says ActiveLayer is "cleared"). -/
def noneId : LayerId := ⟨LayerType.NONE, -1⟩

/-- An integer point (`QPoint`; `QPointF` coordinates are truncated to
integers by every operation the code performs on them). -/
structure Point where
  x : Int
  y : Int
deriving DecidableEq, Repr

/-- An axis-aligned rectangle with integer corners (`QRect`). -/
structure Rect where
  x : Int
  y : Int
  w : Int
  h : Int
deriving DecidableEq, Repr

/-- Rectangle point containment: half-open on the far edges. -/
def Rect.contains (r : Rect) (p : Point) : Bool :=
  decide (r.x ≤ p.x) && decide (p.x < r.x + r.w) &&
  decide (r.y ≤ p.y) && decide (p.y < r.y + r.h)

/-- A `QRegion`: a finite union of rectangles. -/
abbrev Region := List Rect

/-- Region point containment (`QRegion::contains`). -/
def Region.contains (region : Region) (p : Point) : Bool :=
  List.any region (fun r => r.contains p)

/-- Region translation (`QRegion::translated`). -/
def Region.translated (region : Region) (dx dy : Int) : Region :=
  List.map (fun r => { r with x := r.x + dx, y := r.y + dy }) region

/-- Region union (`operator+=` on `QRegion`), as list concatenation: the
point sets are what containment queries observe. -/
def Region.union (a b : Region) : Region := List.append a b

/-- The slice of a `QImage`/`QPixmap` the claims observe: dimensions, whether
it carries an alpha channel, and the alpha mask region (`image.mask()`). -/
structure Image where
  width : Int
  height : Int
  hasAlpha : Bool
  alphaMask : Region
deriving DecidableEq, Repr

/-- `FrameView::Layer`: id, enabled flag, image, hit-test mask, placement
offset, and the wraparound repeat flag. -/
structure Layer where
  id : LayerId
  enabled : Bool
  image : Image
  mask : Region
  location : Point
  repeats : Bool
deriving DecidableEq, Repr

/-- Mask construction as performed after each `m_queue.append` in
`updateTilesGBA`: the alpha mask when the image has alpha, otherwise the
full image rectangle. -/
def buildMask (img : Image) : Region :=
  if img.hasAlpha then img.alphaMask else [⟨0, 0, img.width, img.height⟩]

/-- The coordinate renormalization in `lookupLayer` for repeating layers:
`if (location.x() + layerDims.width() < 0) location.setX(std::fmod(location.x(), layerDims.width()))`.
`Int.tmod` matches `std::fmod` (result sign follows the dividend). -/
def wrapCoord (loc size : Int) : Int :=
  if loc + size < 0 then Int.tmod loc size else loc

/-- The containment region built for one layer inside `lookupLayer`: for a
repeating layer, the union of the mask translated to the (renormalized)
location and to the three wrap-replicated positions (right, down,
right+down); otherwise the single translated mask. -/
def layerRegion (layer : Layer) : Region :=
  let w := layer.image.width
  let h := layer.image.height
  if layer.repeats then
    let lx := wrapCoord layer.location.x w
    let ly := wrapCoord layer.location.y h
    Region.union
      (Region.union (Region.translated layer.mask lx ly)
                    (Region.translated layer.mask (lx + w) ly))
      (Region.union (Region.translated layer.mask lx (ly + h))
                    (Region.translated layer.mask (lx + w) (ly + h)))
  else
    Region.translated layer.mask layer.location.x layer.location.y

/-- The per-layer hit predicate of `lookupLayer`: enabled, not globally
disabled, and the (possibly wrap-replicated) translated mask contains the
point. -/
def layerHit (disabled : Finset LayerId) (p : Point) (layer : Layer) : Bool :=
  layer.enabled && !(decide (layer.id ∈ disabled)) && (layerRegion layer).contains p

/-- `FrameView::lookupLayer`: walk the queue in order, skip layers that are
disabled (locally or via the disabled set), and return the first layer whose
region contains the point. -/
def lookupLayer (queue : List Layer) (disabled : Finset LayerId) (p : Point) :
    Option Layer :=
  match queue with
  | [] => none
  | layer :: rest =>
    if !layer.enabled || decide (layer.id ∈ disabled) then
      lookupLayer rest disabled p
    else if (layerRegion layer).contains p then
      some layer
    else
      lookupLayer rest disabled p

/-- The index-returning variant of `lookupLayer` used to model the C++
out-pointer into `m_queue` (the pointer identifies the first matching
queue slot). -/
def lookupLayerIdx (queue : List Layer) (disabled : Finset LayerId) (p : Point) :
    Option Nat :=
  List.findIdx? (fun l => layerHit disabled p l) queue

/-- The mutable state of the view that the interactive operations touch:
`m_queue`, `m_disabled`, `m_active`, `m_glowFrame`. -/
structure FrameViewState where
  queue : List Layer
  disabled : Finset LayerId
  active : LayerId
  glowFrame : Nat

/-- The `QListWidget::itemChanged` handler in the `FrameView` constructor:
look the layer up by the item's stored queue index, set its enabled flag
from the check state, and remove (checked) or insert (unchecked) its id
in `m_disabled`. -/
def toggleItem (s : FrameViewState) (i : Nat) (checked : Bool) : FrameViewState :=
  match s.queue[i]? with
  | none => s
  | some layer =>
    let layer' := { layer with enabled := checked }
    { s with
      queue := s.queue.set i layer'
      disabled :=
        if checked then s.disabled.erase layer'.id
        else insert layer'.id s.disabled }

/-- `FrameView::selectLayer`: on a hit, toggle `m_active` between the hit
layer's id and the cleared id, and reset `m_glowFrame` to zero; on a miss,
leave the state unchanged. -/
def selectLayer (s : FrameViewState) (p : Point) : FrameViewState :=
  match lookupLayer s.queue s.disabled p with
  | none => s
  | some layer =>
    { s with
      active := if layer.id = s.active then noneId else layer.id
      glowFrame := 0 }

/-- `FrameView::disableLayer`: on a hit, set the hit layer's enabled flag to
false and insert its id into `m_disabled`; on a miss, leave the state
unchanged. -/
def disableLayer (s : FrameViewState) (p : Point) : FrameViewState :=
  match lookupLayerIdx s.queue s.disabled p with
  | none => s
  | some i =>
    match s.queue[i]? with
    | none => s
    | some layer =>
      { s with
        queue := s.queue.set i { layer with enabled := false }
        disabled := insert layer.id s.disabled }

/-- The injection checkpoint passed to `mVideoLoggerInjectionPoint`
(`LOGGER_INJECTION_FIRST_SCANLINE`). -/
inductive InjectionPoint where
  | firstScanline
deriving DecidableEq, Repr

/-- The observable effect of one `injectGBA` pass on the replay core: the
checkpoint selected, the OAM words injected into the log
(`mVideoLoggerInjectOAM` address/value pairs, in order), the explicit
`enableVideoLayer` calls (layer index and enabled value, in order), and the
set of renderer highlight flags (`highlightBG`/`highlightOBJ`) left set,
keyed by layer id. -/
structure InjectState where
  injectionPoint : Option InjectionPoint
  oamInjections : List (Int × Nat)
  videoLayerCalls : List (Int × Bool)
  highlights : Finset LayerId

/-- One iteration of the `for (const Layer& layer : m_queue)` loop in
`injectGBA`: a disabled sprite gets an OAM injection of `0x200` at
attribute offset `index << 2`; a background gets
`enableVideoLayer(index, enabled)`; the layer matching `m_active` gets its
highlight flag set.  Other layer kinds fall through the switch. -/
def injectLayer (g : InjectState) (active : LayerId) (layer : Layer) : InjectState :=
  match layer.id.type with
  | LayerType.SPRITE =>
    let g :=
      if !layer.enabled then
        { g with oamInjections := g.oamInjections ++ [(layer.id.index * 4, 0x200)] }
      else g
    if layer.id = active then { g with highlights := insert layer.id g.highlights }
    else g
  | LayerType.BACKGROUND =>
    let g := { g with videoLayerCalls := g.videoLayerCalls ++ [(layer.id.index, layer.enabled)] }
    if layer.id = active then { g with highlights := insert layer.id g.highlights }
    else g
  | _ => g

/-- `FrameView::injectGBA`: select the first-scanline checkpoint, clear all
`highlightBG[0..3]` and `highlightOBJ[0..127]` flags (so the prior
highlight set is discarded wholesale), then walk the queue issuing
injections and highlight flags.  `priorHighlights` is the renderer's
highlight state left over from the previous pass. -/
def injectGBA (priorHighlights : Finset LayerId) (queue : List Layer)
    (active : LayerId) : InjectState :=
  List.foldl (fun g l => injectLayer g active l)
    { injectionPoint := some InjectionPoint.firstScanline
      oamInjections := []
      videoLayerCalls := []
      highlights := (priorHighlights \ priorHighlights : Finset LayerId) }
    queue

/-- Modelled from the spec: the per-object data `lookupObj`/`compositeObj`
produce (those helpers live in `AssetView`, outside the sampled sources).
`image` is the composited, mirror-applied object image; `enabled` and
`priority` are the decoded object attributes; `x`, `y` the screen offset. -/
structure ObjInfo where
  enabled : Bool
  priority : Nat
  x : Int
  y : Int
  image : Image

/-- Modelled from the spec: the hardware-register snapshot `updateTilesGBA`
reads while the core is interrupted (the register-decoding macros live in
headers outside the sampled sources).  `objs` is the object-attribute table
view, `bgEnabled`/`bgPriority` the decoded `DISPCNT`/`BGxCNT` bits,
`bgHofs`/`bgVofs` the raw scroll registers (masked by the code),
`bgImage` the `compositeMap` result, `mode` the video mode, and
`backdropImage` the synthetic solid-color backdrop image the code builds
from palette entry 0. -/
structure GBAHw where
  objs : Nat → ObjInfo
  bgEnabled : Nat → Bool
  bgPriority : Nat → Nat
  bgHofs : Nat → Nat
  bgVofs : Nat → Nat
  bgImage : Nat → Image
  mode : Nat
  backdropImage : Image

/-- The sprite half of one priority iteration of `updateTilesGBA`: sprites
0..127 in index order, keeping those enabled with matching priority; each
becomes a non-repeating layer whose enabled flag is
`!m_disabled.contains({SPRITE, sprite})` and whose mask comes from
`buildMask`. -/
def spriteLayersAt (hw : GBAHw) (disabled : Finset LayerId) (priority : Nat) :
    List Layer :=
  List.filterMap (fun sprite =>
    let info := hw.objs sprite
    if info.enabled && decide (info.priority = priority) then
      some
        { id := ⟨LayerType.SPRITE, (sprite : Int)⟩
          enabled := !(decide (⟨LayerType.SPRITE, (sprite : Int)⟩ ∈ disabled))
          image := info.image
          mask := buildMask info.image
          location := ⟨info.x, info.y⟩
          repeats := false }
    else none)
    (List.range 128)

/-- The background half of one priority iteration of `updateTilesGBA`:
backgrounds 0..3 in index order, keeping those enabled with matching
priority; each becomes a repeating layer, with its scroll offset read from
`BGxHOFS`/`BGxVOFS` (negated, masked to 9 bits) only in mode 0. -/
def bgLayersAt (hw : GBAHw) (disabled : Finset LayerId) (priority : Nat) :
    List Layer :=
  List.filterMap (fun bg =>
    if hw.bgEnabled bg && decide (hw.bgPriority bg = priority) then
      some
        { id := ⟨LayerType.BACKGROUND, (bg : Int)⟩
          enabled := !(decide (⟨LayerType.BACKGROUND, (bg : Int)⟩ ∈ disabled))
          image := hw.bgImage bg
          mask := buildMask (hw.bgImage bg)
          location :=
            if hw.mode = 0 then
              ⟨-((hw.bgHofs bg % 512 : Nat) : Int), -((hw.bgVofs bg % 512 : Nat) : Int)⟩
            else ⟨0, 0⟩
          repeats := true }
    else none)
    (List.range 4)

/-- The synthetic backdrop layer appended last by `updateTilesGBA`:
id `{BACKDROP}`, enabled unless globally disabled, location `(0, 0)`,
`repeats = false`. -/
def backdropLayer (hw : GBAHw) (disabled : Finset LayerId) : Layer :=
  { id := ⟨LayerType.BACKDROP, -1⟩
    enabled := !(decide (⟨LayerType.BACKDROP, -1⟩ ∈ disabled))
    image := hw.backdropImage
    mask := buildMask hw.backdropImage
    location := ⟨0, 0⟩
    repeats := false }

/-- `FrameView::updateTilesGBA`: if the freeze box is checked the pass
returns immediately and the previous queue is retained; otherwise the queue
is rebuilt from scratch — for each priority 0..3 the matching sprites then
the matching backgrounds — and the backdrop layer is appended last. -/
def updateTilesGBA (freeze : Bool) (hw : GBAHw) (disabled : Finset LayerId)
    (prevQueue : List Layer) : List Layer :=
  if freeze then prevQueue
  else
    (List.range 4).flatMap
      (fun priority => spriteLayersAt hw disabled priority ++ bgLayersAt hw disabled priority)
    ++ [backdropLayer hw disabled]

/-- `FrameView::updateTilesGB`: if the freeze box is checked the pass
returns immediately; otherwise it clears the queue and appends nothing
(the GB decomposition is unimplemented in this code). -/
def updateTilesGB (freeze : Bool) (prevQueue : List Layer) : List Layer :=
  if freeze then prevQueue else []

/-- The replay-core operations `invalidateQueue` can issue on `m_vl`;
the injection step carries the directives `injectGBA` computes. -/
inductive ReplayEvent where
  | reset
  | inject (directives : InjectState)
  | runFrame

/-- Which image the composited view is produced from. -/
inductive CompositeSrc where
  | renderedImage
  | framebufferImage
deriving DecidableEq, Repr

/-- `FrameView::invalidateQueue`, reduced to its observable effects on the
replay core and the composite (GBA platform): when `m_vl` is loaded it
issues `reset`, the platform injection, and `runFrame` (in that order);
when `m_vl` is null it touches the replay core not at all.  When the
replay framebuffer is null the composite is built from the raw rendered
image `m_rendered`, otherwise from the replay framebuffer. -/
def invalidateQueueModel (s : FrameViewState) (priorHighlights : Finset LayerId)
    (vlLoaded : Bool) (framebufferNull : Bool) :
    List ReplayEvent × CompositeSrc :=
  ((if vlLoaded then
      [ReplayEvent.reset,
       ReplayEvent.inject (injectGBA priorHighlights s.queue s.active),
       ReplayEvent.runFrame]
    else []),
   if framebufferNull then CompositeSrc.renderedImage
   else CompositeSrc.framebufferImage)

/-- Sprite layers whose enabled flag is false: exactly the layers for which
`injectGBA` issues an OAM injection. -/
def spriteOff (l : Layer) : Bool :=
  match l.id.type with
  | LayerType.SPRITE => !l.enabled
  | _ => false

/-- Background layers: exactly the layers for which `injectGBA` issues an
`enableVideoLayer` call. -/
def isBg (l : Layer) : Bool :=
  match l.id.type with
  | LayerType.BACKGROUND => true
  | _ => false

/-- Layers whose id matches the active layer and whose kind is Sprite or
Background: exactly the layers for which `injectGBA` sets a highlight
flag. -/
def hlMatch (active : LayerId) (l : Layer) : Bool :=
  (match l.id.type with
   | LayerType.SPRITE => true
   | LayerType.BACKGROUND => true
   | _ => false) && decide (l.id = active)

/-- A concrete 8×4 opaque image used in witnesses. -/
def exImage : Image := ⟨8, 4, false, []⟩

/-- The full-rectangle mask of `exImage`. -/
def exMask : Region := [⟨0, 0, 8, 4⟩]

/-- A concrete enabled sprite layer at the origin, used in witnesses. -/
def exSprite : Layer :=
  ⟨⟨LayerType.SPRITE, 0⟩, true, exImage, exMask, ⟨0, 0⟩, false⟩

/-- A concrete enabled repeating background layer at offset `(-5, 0)`,
used in witnesses. -/
def exBg : Layer :=
  ⟨⟨LayerType.BACKGROUND, 1⟩, true, exImage, exMask, ⟨-5, 0⟩, true⟩

/-- A concrete hardware snapshot with everything disabled, used in
witnesses and counterexamples. -/
def hw0 : GBAHw :=
  { objs := fun _ => ⟨false, 0, 0, 0, exImage⟩
    bgEnabled := fun _ => false
    bgPriority := fun _ => 0
    bgHofs := fun _ => 0
    bgVofs := fun _ => 0
    bgImage := fun _ => exImage
    mode := 0
    backdropImage := exImage }

/-- A concrete view state holding the single sprite layer `exSprite`, with
that layer active, used in witnesses. -/
def exState : FrameViewState :=
  { queue := [exSprite]
    disabled := ∅
    active := ⟨LayerType.SPRITE, 0⟩
    glowFrame := 5 }

theorem lookupLayer_eq_find? (queue : List Layer) (disabled : Finset LayerId)
    (p : Point) : lookupLayer queue disabled p = queue.find? (layerHit disabled p) := by
  induction queue with
  | nil => rfl
  | cons layer rest ih =>
    cases he : layer.enabled <;>
      cases hm : decide (layer.id ∈ disabled) <;>
        cases hc : (layerRegion layer).contains p <;>
          simp [lookupLayer, layerHit, he, hm, hc, List.find?, ih]

/-- C2: `lookupLayer` returns the first layer in queue order that is
enabled, not in the disabled set, and whose translated (wrap-replicated for
repeating layers) mask contains the point — the predicate `layerHit`;
it returns `none` exactly when no such layer exists, and no other
tie-break is applied (the returned layer is characterized purely by being
the earliest hit in queue order). -/
theorem lookupLayer_first_match (queue : List Layer) (disabled : Finset LayerId)
    (p : Point) :
    lookupLayer queue disabled p = queue.find? (layerHit disabled p) ∧
    (∀ l : Layer, lookupLayer queue disabled p = some l ↔
      layerHit disabled p l = true ∧
      ∃ i h, queue[i] = l ∧
        ∀ j : Nat, (hj : j < i) →
          ¬ layerHit disabled p (queue.get ⟨j, Nat.lt_trans hj h⟩) = true) ∧
    (lookupLayer queue disabled p = none ↔ ∀ l ∈ queue, ¬ layerHit disabled p l = true) := by
  refine ⟨lookupLayer_eq_find? queue disabled p, ?_, ?_⟩
  · intro l
    rw [lookupLayer_eq_find?, List.find?_eq_some_iff_getElem]
    simp
  · rw [lookupLayer_eq_find?, List.find?_eq_none]

/-- One concrete application of `lookupLayer_first_match`: on the singleton
queue holding the enabled sprite `exSprite` with nothing disabled, a point
inside the sprite's mask returns that sprite as the first match. -/
theorem lookupLayer_first_match_witness :
    lookupLayer [exSprite] ∅ ⟨1, 1⟩ = some exSprite :=
  ((lookupLayer_first_match [exSprite] ∅ ⟨1, 1⟩).2.1 exSprite).mpr
    ⟨by decide, 0, by decide, by decide, by omega⟩

theorem Region.contains_union (a b : Region) (p : Point) :
    (Region.union a b).contains p = (a.contains p || b.contains p) := by
  simp [Region.union, Region.contains, List.any_append]

theorem Region.contains_translated (m : Region) (dx dy : Int) (p : Point) :
    (Region.translated m dx dy).contains p = true ↔
      ∃ r ∈ m, r.x + dx ≤ p.x ∧ p.x < r.x + dx + r.w ∧
               r.y + dy ≤ p.y ∧ p.y < r.y + dy + r.h := by
  simp [Region.translated, Region.contains, List.any_map, List.any_eq_true,
    Function.comp, Rect.contains, and_assoc]

/-- C3: for a repeating layer the hit-test region is the union of the mask
translated to the placement and to the three wrap-replicated positions
(right by the width, down by the height, and both), with a coordinate first
renormalized by `fmod` exactly when `offset + size` is negative; in
particular, for a repeating background layer at offset `(-5, 0)` of width
`W` and height `H`, with its mask inside the image bounds, a hit test at
`(W-3, y)` matches exactly when the hit test at the equivalent point
`(-3, y)` of the primary un-wrapped placement does. -/
theorem layerRegion_wrap_replication :
    (∀ loc size : Int,
      (loc + size < 0 → wrapCoord loc size = Int.tmod loc size) ∧
      (0 ≤ loc + size → wrapCoord loc size = loc)) ∧
    (∀ (W H y : Int) (layer : Layer),
      layer.repeats = true →
      layer.location = ⟨-5, 0⟩ →
      layer.image.width = W →
      layer.image.height = H →
      5 ≤ W → 0 ≤ y → y < H →
      (∀ r ∈ layer.mask, 0 ≤ r.x ∧ r.x + r.w ≤ W ∧ 0 ≤ r.y ∧ r.y + r.h ≤ H) →
      (layerRegion layer).contains ⟨W - 3, y⟩ = (layerRegion layer).contains ⟨-3, y⟩) := by
  constructor
  · intro loc size
    constructor
    · intro h
      unfold wrapCoord
      rw [if_pos h]
    · intro h
      unfold wrapCoord
      rw [if_neg (by omega)]
  · intro W H y layer hrep hloc hw hh hW hy0 hyH hb
    have hwx : wrapCoord (-5) W = -5 := by
      unfold wrapCoord
      rw [if_neg (by omega)]
    have hwy : wrapCoord 0 H = 0 := by
      unfold wrapCoord
      rw [if_neg (by omega)]
    rw [Bool.eq_iff_iff]
    simp only [layerRegion, hrep, if_true, hloc, hw, hh, hwx, hwy,
      Region.contains_union, Bool.or_eq_true, Region.contains_translated]
    constructor
    · rintro ((⟨r, hr, hx1, hx2, hy1, hy2⟩ | ⟨r, hr, hx1, hx2, hy1, hy2⟩) |
        (⟨r, hr, hx1, hx2, hy1, hy2⟩ | ⟨r, hr, hx1, hx2, hy1, hy2⟩)) <;>
        have hbr := hb r hr
      · exact absurd hx2 (by omega)
      · exact Or.inl (Or.inl ⟨r, hr, by omega, by omega, by omega, by omega⟩)
      · exact absurd hy1 (by omega)
      · exact absurd hy1 (by omega)
    · rintro ((⟨r, hr, hx1, hx2, hy1, hy2⟩ | ⟨r, hr, hx1, hx2, hy1, hy2⟩) |
        (⟨r, hr, hx1, hx2, hy1, hy2⟩ | ⟨r, hr, hx1, hx2, hy1, hy2⟩)) <;>
        have hbr := hb r hr
      · exact Or.inl (Or.inr ⟨r, hr, by omega, by omega, by omega, by omega⟩)
      · exact absurd hx1 (by omega)
      · exact absurd hy1 (by omega)
      · exact absurd hy1 (by omega)

/-- One concrete application of `layerRegion_wrap_replication`: the
renormalization fires at `loc = -20`, `size = 8`, and the wrap-replicated
hit test on `exBg` (width 8, offset `(-5, 0)`) agrees between `(5, 1)` and
`(-3, 1)`. -/
theorem layerRegion_wrap_replication_witness :
    wrapCoord (-20) 8 = Int.tmod (-20) 8 ∧
    (layerRegion exBg).contains ⟨5, 1⟩ = (layerRegion exBg).contains ⟨-3, 1⟩ :=
  ⟨(layerRegion_wrap_replication.1 (-20) 8).1 (by decide),
   layerRegion_wrap_replication.2 8 4 1 exBg rfl rfl rfl rfl (by decide)
     (by decide) (by decide) (by decide)⟩

theorem list_set_self {α : Type} (l : List α) (i : Nat) (x : α)
    (h : l[i]? = some x) : l.set i x = l := by
  induction l generalizing i with
  | nil => simp at h
  | cons y ys ih =>
    cases i with
    | zero =>
      simp at h
      simp [List.set, h]
    | succ n =>
      simp at h
      simp [List.set, ih n h]

theorem list_set_set {α : Type} (l : List α) (i : Nat) (a b : α) :
    (l.set i a).set i b = l.set i b := by
  induction l generalizing i with
  | nil => rfl
  | cons y ys ih =>
    cases i with
    | zero => rfl
    | succ n => simp [List.set, ih]

theorem list_getElem?_set_self {α : Type} (l : List α) (i : Nat) (a x : α)
    (h : l[i]? = some x) : (l.set i a)[i]? = some a := by
  induction l generalizing i with
  | nil => simp at h
  | cons y ys ih =>
    cases i with
    | zero => simp [List.set]
    | succ n =>
      simp at h
      simpa [List.set] using ih n h

/-- C4: immediately after either toggle operation — the checkbox handler
`toggleItem` or `disableLayer` at a point — the toggled layer's enabled
flag equals the negation of membership of its id in the disabled set:
enabling erases the id and disabling inserts it. -/
theorem toggle_enabled_disabled_invariant :
    (∀ (s : FrameViewState) (i : Nat) (b : Bool) (l : Layer),
      s.queue[i]? = some l →
      ∃ l', (toggleItem s i b).queue[i]? = some l' ∧ l'.id = l.id ∧
        l'.enabled = b ∧
        l'.enabled = !(decide (l'.id ∈ (toggleItem s i b).disabled))) ∧
    (∀ (s : FrameViewState) (p : Point) (i : Nat) (l : Layer),
      lookupLayerIdx s.queue s.disabled p = some i →
      s.queue[i]? = some l →
      ∃ l', (disableLayer s p).queue[i]? = some l' ∧ l'.id = l.id ∧
        l'.enabled = false ∧
        l'.enabled = !(decide (l'.id ∈ (disableLayer s p).disabled))) := by
  constructor
  · intro s i b l h
    refine ⟨{ l with enabled := b }, ?_, rfl, rfl, ?_⟩
    · simp only [toggleItem, h]
      exact list_getElem?_set_self s.queue i _ l h
    · cases b <;>
        simp [toggleItem, h, Finset.not_mem_erase, Finset.mem_insert_self]
  · intro s p i l hidx h
    refine ⟨{ l with enabled := false }, ?_, rfl, rfl, ?_⟩
    · simp only [disableLayer, hidx, h]
      exact list_getElem?_set_self s.queue i _ l h
    · simp [disableLayer, hidx, h, Finset.mem_insert_self]

/-- One concrete application of `toggle_enabled_disabled_invariant`:
unchecking the sprite in `exState` and double-click-disabling it both leave
the layer disabled with its id in the disabled set. -/
theorem toggle_enabled_disabled_invariant_witness :
    (∃ l', (toggleItem exState 0 false).queue[0]? = some l' ∧
      l'.id = exSprite.id ∧ l'.enabled = false ∧
      l'.enabled = !(decide (l'.id ∈ (toggleItem exState 0 false).disabled))) ∧
    (∃ l', (disableLayer exState ⟨1, 1⟩).queue[0]? = some l' ∧
      l'.id = exSprite.id ∧ l'.enabled = false ∧
      l'.enabled = !(decide (l'.id ∈ (disableLayer exState ⟨1, 1⟩).disabled))) :=
  ⟨toggle_enabled_disabled_invariant.1 exState 0 false exSprite (by decide),
   toggle_enabled_disabled_invariant.2 exState ⟨1, 1⟩ 0 exSprite (by decide) (by decide)⟩

/-- C6: toggling a layer disabled and then re-enabling it restores the
whole view state — queue and disabled set included — exactly, so any
deterministic single-frame replay of the same captured log under the
injection directives (`injectGBA`) reproduces the pre-toggle composite
bit-for-bit. -/
theorem toggle_roundtrip_restores (s : FrameViewState) (i : Nat) (l : Layer)
    (hget : s.queue[i]? = some l) (hen : l.enabled = true)
    (hdis : l.id ∉ s.disabled) :
    toggleItem (toggleItem s i false) i true = s ∧
    ∀ priorHighlights : Finset LayerId,
      injectGBA priorHighlights (toggleItem (toggleItem s i false) i true).queue
          (toggleItem (toggleItem s i false) i true).active =
        injectGBA priorHighlights s.queue s.active := by
  have e1 : toggleItem s i false =
      { s with queue := s.queue.set i { l with enabled := false }
               disabled := insert l.id s.disabled } := by
    simp [toggleItem, hget]
  have h1 : (s.queue.set i { l with enabled := false })[i]? =
      some { l with enabled := false } :=
    list_getElem?_set_self s.queue i _ l hget
  have e2 : toggleItem (toggleItem s i false) i true =
      { s with queue := (s.queue.set i { l with enabled := false }).set i
                 { l with enabled := true }
               disabled := (insert l.id s.disabled).erase l.id } := by
    rw [e1]
    simp [toggleItem, h1]
  have hl : ({ l with enabled := true } : Layer) = l := by
    cases l
    simp at hen ⊢
    exact hen
  have hmain : toggleItem (toggleItem s i false) i true = s := by
    rw [e2, list_set_set, hl, list_set_self s.queue i l hget,
      Finset.erase_insert hdis]
  exact ⟨hmain, fun priorHighlights => by rw [hmain]⟩

/-- One concrete application of `toggle_roundtrip_restores`: the
disable/re-enable round trip on the sprite of `exState` is the identity. -/
theorem toggle_roundtrip_restores_witness :
    toggleItem (toggleItem exState 0 false) 0 true = exState :=
  (toggle_roundtrip_restores exState 0 exSprite (by decide) (by decide)
    (by decide)).1

theorem injectLayer_point (g : InjectState) (a : LayerId) (l : Layer) :
    (injectLayer g a l).injectionPoint = g.injectionPoint := by
  unfold injectLayer
  cases h : l.id.type <;> simp only [h] <;> try split_ifs <;> rfl

theorem injectLayer_oam (g : InjectState) (a : LayerId) (l : Layer) :
    (injectLayer g a l).oamInjections =
      g.oamInjections ++
        (if spriteOff l then [(l.id.index * 4, 0x200)] else []) := by
  unfold injectLayer spriteOff
  cases h : l.id.type <;> simp only [h] <;> try split_ifs <;> simp_all

theorem injectLayer_video (g : InjectState) (a : LayerId) (l : Layer) :
    (injectLayer g a l).videoLayerCalls =
      g.videoLayerCalls ++ (if isBg l then [(l.id.index, l.enabled)] else []) := by
  unfold injectLayer isBg
  cases h : l.id.type <;> simp only [h] <;> try split_ifs <;> simp_all

theorem injectLayer_highlights (g : InjectState) (a : LayerId) (l : Layer) :
    (injectLayer g a l).highlights =
      if hlMatch a l then insert a g.highlights else g.highlights := by
  unfold injectLayer hlMatch
  cases h : l.id.type <;> simp only [h] <;> try split_ifs <;> simp_all

theorem injectGBA_fold (active : LayerId) (queue : List Layer) (g : InjectState) :
    (List.foldl (fun g l => injectLayer g active l) g queue).injectionPoint =
        g.injectionPoint ∧
    (List.foldl (fun g l => injectLayer g active l) g queue).oamInjections =
      g.oamInjections ++
        (queue.filter spriteOff).map (fun l => (l.id.index * 4, 0x200)) ∧
    (List.foldl (fun g l => injectLayer g active l) g queue).videoLayerCalls =
      g.videoLayerCalls ++
        (queue.filter isBg).map (fun l => (l.id.index, l.enabled)) ∧
    (List.foldl (fun g l => injectLayer g active l) g queue).highlights =
      g.highlights ∪ (if queue.any (hlMatch active) then {active} else ∅) := by
  induction queue generalizing g with
  | nil => simp
  | cons l q ih =>
    simp only [List.foldl_cons, List.filter_cons, List.any_cons]
    refine ⟨?_, ?_, ?_, ?_⟩
    · rw [(ih (injectLayer g active l)).1, injectLayer_point]
    · rw [(ih (injectLayer g active l)).2.1, injectLayer_oam]
      cases hso : spriteOff l <;> simp [hso]
    · rw [(ih (injectLayer g active l)).2.2.1, injectLayer_video]
      cases hbg : isBg l <;> simp [hbg]
    · rw [(ih (injectLayer g active l)).2.2.2, injectLayer_highlights]
      by_cases hm : hlMatch active l = true
      · simp only [hm, if_true, Bool.true_or]
        by_cases hq : q.any (hlMatch active) = true
        · simp [hq]
        · have hq' : q.any (hlMatch active) = false := by
            revert hq
            cases q.any (hlMatch active) <;> simp
          simp [hq']
          all_goals
            ext x
            simp only [Finset.mem_insert, Finset.mem_union, Finset.mem_singleton,
              Finset.not_mem_empty]
            tauto
      · rw [Bool.not_eq_true] at hm
        simp [hm]

/-- C1: every `injectGBA` pass selects the first-scanline checkpoint, and
over the layer queue it injects the OAM word `0x200` at attribute offset
`index * 4` for exactly the Sprite layers whose enabled flag is false
(in particular for each such layer), and issues a direct
`enableVideoLayer(index, enabled)` call for exactly the Background layers —
backgrounds never contribute an OAM log patch. -/
theorem injectGBA_directives (priorHighlights : Finset LayerId)
    (queue : List Layer) (active : LayerId) :
    (injectGBA priorHighlights queue active).injectionPoint =
        some InjectionPoint.firstScanline ∧
    (injectGBA priorHighlights queue active).oamInjections =
      (queue.filter spriteOff).map (fun l => (l.id.index * 4, 0x200)) ∧
    (∀ l ∈ queue, l.id.type = LayerType.SPRITE → l.enabled = false →
      (l.id.index * 4, 0x200) ∈ (injectGBA priorHighlights queue active).oamInjections) ∧
    (injectGBA priorHighlights queue active).videoLayerCalls =
      (queue.filter isBg).map (fun l => (l.id.index, l.enabled)) ∧
    (∀ l ∈ queue, l.id.type = LayerType.BACKGROUND →
      (l.id.index, l.enabled) ∈ (injectGBA priorHighlights queue active).videoLayerCalls) := by
  have hfold := injectGBA_fold active queue
    { injectionPoint := some InjectionPoint.firstScanline
      oamInjections := []
      videoLayerCalls := []
      highlights := (priorHighlights \ priorHighlights : Finset LayerId) }
  refine ⟨hfold.1, ?_, ?_, ?_, ?_⟩
  · rw [show (injectGBA priorHighlights queue active).oamInjections =
        _ from hfold.2.1]
    simp
  · intro l hl ht hen
    rw [show (injectGBA priorHighlights queue active).oamInjections =
        _ from hfold.2.1]
    simp only [List.nil_append, List.mem_map, List.mem_filter]
    exact ⟨l, ⟨hl, by simp [spriteOff, ht, hen]⟩, rfl⟩
  · rw [show (injectGBA priorHighlights queue active).videoLayerCalls =
        _ from hfold.2.2.1]
    simp
  · intro l hl ht
    rw [show (injectGBA priorHighlights queue active).videoLayerCalls =
        _ from hfold.2.2.1]
    simp only [List.nil_append, List.mem_map, List.mem_filter]
    exact ⟨l, ⟨hl, by simp [isBg, ht]⟩, rfl⟩

/-- One concrete application of `injectGBA_directives`: a queue holding one
disabled sprite with index 3 yields exactly the OAM injection of `0x200` at
attribute offset 12. -/
theorem injectGBA_directives_witness :
    (injectGBA ∅ [⟨⟨LayerType.SPRITE, 3⟩, false, exImage, exMask, ⟨0, 0⟩, false⟩]
        noneId).oamInjections = [(12, 0x200)] := by
  rw [(injectGBA_directives ∅
    [⟨⟨LayerType.SPRITE, 3⟩, false, exImage, exMask, ⟨0, 0⟩, false⟩] noneId).2.1]
  rfl

/-- C10: after an `injectGBA` pass the renderer highlight flags hold at
most one set flag; the flag set is the singleton of the active id exactly
when the active id identifies a Sprite or Background layer present in the
queue, and it is independent of whatever highlight flags were set before
the pass (they are all cleared at the start). -/
theorem injectGBA_highlight_unique (priorHighlights : Finset LayerId)
    (queue : List Layer) (active : LayerId) :
    (injectGBA priorHighlights queue active).highlights =
      (if queue.any (hlMatch active) then {active} else ∅) ∧
    (injectGBA priorHighlights queue active).highlights.card ≤ 1 ∧
    (∀ prior2 : Finset LayerId,
      (injectGBA prior2 queue active).highlights =
        (injectGBA priorHighlights queue active).highlights) := by
  have key : ∀ pr : Finset LayerId,
      (injectGBA pr queue active).highlights =
        (if queue.any (hlMatch active) then {active} else ∅) := by
    intro pr
    have hfold := injectGBA_fold active queue
      { injectionPoint := some InjectionPoint.firstScanline
        oamInjections := []
        videoLayerCalls := []
        highlights := (pr \ pr : Finset LayerId) }
    rw [show (injectGBA pr queue active).highlights = _ from hfold.2.2.2]
    simp [Finset.sdiff_self]
  refine ⟨key priorHighlights, ?_, fun prior2 => by rw [key, key]⟩
  rw [key priorHighlights]
  split
  · simp
  · simp

/-- One concrete application of `injectGBA_highlight_unique`: on `exState`
(whose sprite is the active layer) the pass leaves exactly the active id
highlighted, even when a stale flag was set before. -/
theorem injectGBA_highlight_unique_witness :
    (injectGBA {noneId} exState.queue exState.active).highlights =
      {exState.active} := by
  rw [(injectGBA_highlight_unique {noneId} exState.queue exState.active).1]
  decide

/-- C7: when `selectLayer` hits layer `l`, it sets the active layer to
`l.id` if it was not active, clears the active layer if it was, and resets
the glow animation counter to zero; after a deselection, the following
`injectGBA` pass (on a queue of real layers, whose kinds are never `NONE`)
sets no highlight flag at all. -/
theorem selectLayer_toggle_active (s : FrameViewState) (p : Point) (l : Layer)
    (hl : lookupLayer s.queue s.disabled p = some l) :
    (l.id ≠ s.active → (selectLayer s p).active = l.id) ∧
    (l.id = s.active → (selectLayer s p).active = noneId) ∧
    (selectLayer s p).glowFrame = 0 ∧
    (l.id = s.active →
      (∀ ly ∈ s.queue, ly.id.type ≠ LayerType.NONE) →
      ∀ priorHighlights : Finset LayerId,
        (injectGBA priorHighlights (selectLayer s p).queue
          (selectLayer s p).active).highlights = ∅) := by
  refine ⟨?_, ?_, ?_, ?_⟩
  · intro hne
    simp [selectLayer, hl, hne]
  · intro ha
    simp [selectLayer, hl, ha]
  · simp [selectLayer, hl]
  · intro ha hnone priorHighlights
    have hq : (selectLayer s p).queue = s.queue := by simp [selectLayer, hl]
    have hact : (selectLayer s p).active = noneId := by simp [selectLayer, hl, ha]
    rw [hq, hact]
    have hfold := injectGBA_fold noneId s.queue
      { injectionPoint := some InjectionPoint.firstScanline
        oamInjections := []
        videoLayerCalls := []
        highlights := (priorHighlights \ priorHighlights : Finset LayerId) }
    rw [show (injectGBA priorHighlights s.queue noneId).highlights =
        _ from hfold.2.2.2]
    have hany : s.queue.any (hlMatch noneId) = false := by
      rw [List.any_eq_false]
      intro ly hly
      have hty := hnone ly hly
      simp only [hlMatch, Bool.and_eq_true, decide_eq_true_eq, not_and]
      intro _ he
      exact hty (by rw [he]; rfl)
    rw [hany]
    simp [Finset.sdiff_self]

/-- One concrete application of `selectLayer_toggle_active`: clicking the
already-active sprite of `exState` deselects it, resets the glow counter,
and the next injection pass highlights nothing. -/
theorem selectLayer_toggle_active_witness :
    (selectLayer exState ⟨1, 1⟩).active = noneId ∧
    (selectLayer exState ⟨1, 1⟩).glowFrame = 0 ∧
    (injectGBA {noneId} (selectLayer exState ⟨1, 1⟩).queue
      (selectLayer exState ⟨1, 1⟩).active).highlights = ∅ := by
  have h := selectLayer_toggle_active exState ⟨1, 1⟩ exSprite (by decide)
  exact ⟨h.2.1 (by decide), h.2.2.1,
    h.2.2.2 (by decide) (by decide) {noneId}⟩

theorem mem_spriteLayersAt_type {hw : GBAHw} {disabled : Finset LayerId}
    {priority : Nat} {l : Layer} (h : l ∈ spriteLayersAt hw disabled priority) :
    l.id.type = LayerType.SPRITE := by
  rcases List.mem_filterMap.mp h with ⟨sprite, -, hf⟩
  by_cases hc : ((hw.objs sprite).enabled && decide ((hw.objs sprite).priority = priority)) = true
  · rw [if_pos hc] at hf
    cases Option.some.inj hf
    rfl
  · rw [if_neg hc] at hf
    exact Option.noConfusion hf

theorem mem_bgLayersAt_type {hw : GBAHw} {disabled : Finset LayerId}
    {priority : Nat} {l : Layer} (h : l ∈ bgLayersAt hw disabled priority) :
    l.id.type = LayerType.BACKGROUND := by
  rcases List.mem_filterMap.mp h with ⟨bg, -, hf⟩
  by_cases hc : (hw.bgEnabled bg && decide (hw.bgPriority bg = priority)) = true
  · rw [if_pos hc] at hf
    cases Option.some.inj hf
    rfl
  · rw [if_neg hc] at hf
    exact Option.noConfusion hf

/-- C5 (amended): after every non-frozen GBA decomposition pass the rebuilt
queue carries exactly one Backdrop layer, it is the last element, and its
repeats flag is false; the GB decomposition pass instead leaves the queue
empty, so it appends no Backdrop layer at all. -/
theorem updateTilesGBA_backdrop_last (hw : GBAHw) (disabled : Finset LayerId)
    (prev : List Layer) :
    (updateTilesGBA false hw disabled prev).getLast? =
        some (backdropLayer hw disabled) ∧
    ((updateTilesGBA false hw disabled prev).filter
        (fun l => decide (l.id.type = LayerType.BACKDROP))).length = 1 ∧
    (backdropLayer hw disabled).repeats = false ∧
    (∀ prev2, updateTilesGB false prev2 = []) := by
  have hq : updateTilesGBA false hw disabled prev =
      (List.range 4).flatMap
        (fun priority =>
          spriteLayersAt hw disabled priority ++ bgLayersAt hw disabled priority)
      ++ [backdropLayer hw disabled] := rfl
  refine ⟨?_, ?_, rfl, fun prev2 => rfl⟩
  · rw [hq, List.getLast?_concat]
  · rw [hq, List.filter_append]
    have hpre : ((List.range 4).flatMap
        (fun priority =>
          spriteLayersAt hw disabled priority ++ bgLayersAt hw disabled priority)).filter
        (fun l => decide (l.id.type = LayerType.BACKDROP)) = [] := by
      rw [List.filter_eq_nil_iff]
      intro l hl
      rcases List.mem_flatMap.mp hl with ⟨priority, -, hmem⟩
      rcases List.mem_append.mp hmem with hs | hb
      · simp [mem_spriteLayersAt_type hs]
      · simp [mem_bgLayersAt_type hb]
    rw [hpre]
    simp [backdropLayer]

/-- C5 counterexample: on the GB console family the (non-frozen)
decomposition pass produces an empty queue — it contains no Backdrop layer
at all, even when the previous queue held one — refuting the claim for
"either console family". -/
theorem updateTilesGB_no_backdrop :
    ¬ (((updateTilesGB false [backdropLayer hw0 ∅]).filter
        (fun l => decide (l.id.type = LayerType.BACKDROP))).length = 1) := by
  simp [updateTilesGB]

/-- C8: whenever the freeze flag is checked, both decomposition passes
return immediately and the previously built queue is retained unchanged. -/
theorem updateTiles_freeze_retains (hw : GBAHw) (disabled : Finset LayerId)
    (prev prev2 : List Layer) :
    updateTilesGBA true hw disabled prev = prev ∧
    updateTilesGB true prev2 = prev2 :=
  ⟨rfl, rfl⟩

/-- C9: when no replay core is loaded, a re-render request issues no reset,
no injection and no frame run on the replay core; and whenever the replay
framebuffer is null the composite is produced from the raw rendered
image. -/
theorem invalidateQueue_no_replay (s : FrameViewState)
    (priorHighlights : Finset LayerId) (fbNull vl : Bool) :
    (invalidateQueueModel s priorHighlights false fbNull).1 = [] ∧
    (invalidateQueueModel s priorHighlights vl true).2 =
      CompositeSrc.renderedImage :=
  ⟨rfl, rfl⟩

end FrameView
